import Mathlib

/-!
Verification model of `ldm/dream/args.py` from the stable-diffusion repository.

The module under study defines a class `Args` that merges two argparse
namespaces: `_arg_switches` (startup flags, parsed once from the process
argument list) and `_cmd_switches` (per-request flags, re-parsed from every
command string typed at the interactive prompt).  The class intercepts
attribute reads and writes to present the union of the two records, exposes a
`parse_cmd` tokenizer built on `shlex.split`, and serializes the effective
configuration with `to_dict` and `prompt_str`.

The model below embeds the two namespaces as association lists from attribute
names to Python values, the tokenizer as a character-level state machine
following `shlex` in posix whitespace-split mode, and the flag parser as a
token-level state machine over the fixed option schema declared in
`_create_cmd_parser`.  Python exceptions are modeled with `Except`.
-/

/-- Python runtime errors that the modeled code can raise or propagate. -/
inductive PyErr where
  | nameError
  | indexError
  | systemExit
  | attributeError
  | keyError
  | typeError
  | valueError
deriving DecidableEq

/-- An exact decimal `mant / 10 ^ exp10`, the value space of every float the
module parses or declares as a default (all are finite decimals).  Values are
kept canonical: the mantissa of a non-zero value is not divisible by ten
whenever the exponent is positive, and zero is `⟨0, 0⟩`. -/
structure Dec where
  mant : Int
  exp10 : Nat
deriving DecidableEq

/-- Strip factors of ten from the mantissa into the exponent. -/
def decCanonAux : Int → Nat → Dec
  | m, 0 => ⟨m, 0⟩
  | m, e + 1 => if m % 10 = 0 then decCanonAux (m / 10) e else ⟨m, e + 1⟩

/-- Canonical decimal with value `m / 10 ^ e`. -/
def mkDec (m : Int) (e : Nat) : Dec :=
  if m = 0 then ⟨0, 0⟩ else decCanonAux m e

/-- Values stored in the two argparse namespaces.  Floats are modeled as
exact decimals.  Lists keep the element shapes that actually occur: float
lists for `upscale`/`embiggen`, int lists for `embiggen_tiles`, and
(seed, weight) pair lists for a caller-supplied `with_variations` value. -/
inductive PyVal where
  | none
  | bool (b : Bool)
  | int (n : Int)
  | float (d : Dec)
  | str (s : String)
  | floatList (l : List Dec)
  | intList (l : List Int)
  | pairList (l : List (Int × Dec))
deriving DecidableEq

/-- A Python namespace `__dict__`: an insertion-ordered mapping from attribute
names to values, as an association list. -/
abbrev NS := List (String × PyVal)

/-- Python dict assignment `d[k] = v`: an existing key keeps its position and
gets the new value, a missing key is appended at the end. -/
def setKey (d : NS) (k : String) (v : PyVal) : NS :=
  if (d.lookup k).isSome then
    d.map (fun p => if p.1 == k then (k, v) else p)
  else
    d ++ [(k, v)]

/-- Python `d.update(other)`: every entry of `other` is assigned into `d`, in
order. -/
def dictUpdate (d other : NS) : NS :=
  other.foldl (fun acc p => setKey acc p.1 p.2) d

theorem lookup_cons_eq (a k : String) (b : PyVal) (es : NS) :
    ((a, b) :: es).lookup k = if k = a then some b else es.lookup k := by
  rw [List.lookup_cons]
  by_cases h : k = a
  · simp [h]
  · simp [h, beq_false_of_ne h]

theorem lookup_map_assign (d : NS) (k : String) (v : PyVal)
    (h : (d.lookup k).isSome) :
    (d.map (fun p => if p.1 == k then (k, v) else p)).lookup k = some v := by
  induction d with
  | nil => simp [List.lookup] at h
  | cons p rest ih =>
    cases p with
    | mk a b =>
      rw [lookup_cons_eq] at h
      by_cases hp : a = k
      · simp [List.map_cons, hp, lookup_cons_eq]
      · simp only [List.map_cons, if_neg (show ¬(((a, b).1 == k) = true) by simpa using hp)]
        rw [lookup_cons_eq]
        rw [if_neg (fun hh => hp hh.symm)] at h ⊢
        exact ih h

theorem lookup_append_new (d : NS) (k : String) (v : PyVal)
    (h : d.lookup k = Option.none) :
    (d ++ [(k, v)]).lookup k = some v := by
  induction d with
  | nil => simp [lookup_cons_eq]
  | cons p rest ih =>
    cases p with
    | mk a b =>
      rw [lookup_cons_eq] at h
      rw [List.cons_append, lookup_cons_eq]
      by_cases ha : k = a
      · rw [if_pos ha] at h; simp at h
      · rw [if_neg ha] at h ⊢; exact ih h

/-- Assigning `k` makes `k` look up to the assigned value. -/
theorem lookup_setKey_self (d : NS) (k : String) (v : PyVal) :
    (setKey d k v).lookup k = some v := by
  unfold setKey
  by_cases h : (d.lookup k).isSome
  · rw [if_pos h]; exact lookup_map_assign d k v h
  · rw [if_neg h]
    exact lookup_append_new d k v (by
      cases hl : d.lookup k with
      | none => rfl
      | some w => rw [hl] at h; simp at h)

theorem lookup_map_assign_ne (d : NS) (k k2 : String) (v : PyVal)
    (h : k2 ≠ k) :
    (d.map (fun p => if p.1 == k then (k, v) else p)).lookup k2 = d.lookup k2 := by
  induction d with
  | nil => simp
  | cons p rest ih =>
    cases p with
    | mk a b =>
      by_cases hp : a = k
      · simp only [List.map_cons, if_pos (show (((a, b).1 == k) = true) by simpa using hp)]
        rw [lookup_cons_eq, lookup_cons_eq]
        rw [if_neg h, if_neg (by rw [hp]; exact h)]
        exact ih
      · simp only [List.map_cons, if_neg (show ¬(((a, b).1 == k) = true) by simpa using hp)]
        rw [lookup_cons_eq, lookup_cons_eq]
        by_cases hck2 : k2 = a
        · rw [if_pos hck2, if_pos hck2]
        · rw [if_neg hck2, if_neg hck2]; exact ih

theorem lookup_append_one_ne (d : NS) (k k2 : String) (v : PyVal)
    (h : k2 ≠ k) :
    (d ++ [(k, v)]).lookup k2 = d.lookup k2 := by
  induction d with
  | nil => simp [lookup_cons_eq, h]
  | cons p rest ih =>
    cases p with
    | mk a b =>
      rw [List.cons_append, lookup_cons_eq, lookup_cons_eq]
      by_cases hck2 : k2 = a
      · rw [if_pos hck2, if_pos hck2]
      · rw [if_neg hck2, if_neg hck2]; exact ih

/-- Assigning `k` leaves every other key unchanged. -/
theorem lookup_setKey_ne (d : NS) (k k2 : String) (v : PyVal)
    (h : k2 ≠ k) :
    (setKey d k v).lookup k2 = d.lookup k2 := by
  unfold setKey
  by_cases hs : (d.lookup k).isSome
  · rw [if_pos hs]; exact lookup_map_assign_ne d k k2 v h
  · rw [if_neg hs]; exact lookup_append_one_ne d k k2 v h

theorem lookup_none_not_mem_keys (d : NS) (k : String)
    (h : d.lookup k = Option.none) : k ∉ d.map Prod.fst := by
  induction d with
  | nil => simp
  | cons p rest ih =>
    cases p with
    | mk a b =>
      rw [lookup_cons_eq] at h
      by_cases ha : k = a
      · rw [if_pos ha] at h; simp at h
      · rw [if_neg ha] at h
        simp only [List.map_cons, List.mem_cons]
        rintro (hk | hk)
        · exact ha hk
        · exact ih h hk

/-- Assignment leaves the key list unchanged or appends the new key, so key
uniqueness is preserved. -/
theorem nodup_keys_setKey (d : NS) (k : String) (v : PyVal)
    (h : (d.map Prod.fst).Nodup) :
    ((setKey d k v).map Prod.fst).Nodup := by
  unfold setKey
  by_cases hs : (d.lookup k).isSome
  · rw [if_pos hs]
    have : (d.map (fun p => if p.1 == k then (k, v) else p)).map Prod.fst
        = d.map Prod.fst := by
      rw [List.map_map]
      apply List.map_congr_left
      intro p _
      by_cases hp : p.1 = k
      · simp [hp]
      · simp [hp]
    rw [this]; exact h
  · rw [if_neg hs]
    have hnone : d.lookup k = Option.none := by
      cases hl : d.lookup k with
      | none => rfl
      | some w => rw [hl] at hs; simp at hs
    have hnm := lookup_none_not_mem_keys d k hnone
    rw [List.map_append]
    simp only [List.map_cons, List.map_nil]
    rw [List.nodup_append]
    refine ⟨h, List.nodup_singleton k, ?_⟩
    intro x hx hxk
    simp only [List.mem_singleton] at hxk
    exact hnm (hxk ▸ hx)

theorem lookup_none_of_not_mem_keys (d : NS) (k : String)
    (h : k ∉ d.map Prod.fst) : d.lookup k = Option.none := by
  induction d with
  | nil => rfl
  | cons p rest ih =>
    cases p with
    | mk a b =>
      simp only [List.map_cons, List.mem_cons] at h
      push_neg at h
      rw [lookup_cons_eq, if_neg h.1]
      exact ih h.2

/-- Looking a key up in `dictUpdate d other` gives the `other` value when the
key is present there, and the `d` value otherwise.  The hypothesis that the
keys of `other` are unique holds for every argparse namespace. -/
theorem lookup_dictUpdate (d other : NS) (k : String)
    (h : (other.map Prod.fst).Nodup) :
    (dictUpdate d other).lookup k =
      match other.lookup k with
      | some v => some v
      | Option.none => d.lookup k := by
  induction other generalizing d with
  | nil => rfl
  | cons p rest ih =>
    cases p with
    | mk a b =>
      have hrest : (rest.map Prod.fst).Nodup := by
        simp only [List.map_cons, List.nodup_cons] at h
        exact h.2
      have hanotin : a ∉ rest.map Prod.fst := by
        simp only [List.map_cons, List.nodup_cons] at h
        exact h.1
      have hstep : dictUpdate d ((a, b) :: rest) = dictUpdate (setKey d a b) rest := rfl
      rw [hstep, ih (setKey d a b) hrest, lookup_cons_eq]
      by_cases hk : k = a
      · subst hk
        rw [lookup_none_of_not_mem_keys rest k hanotin, if_pos rfl, lookup_setKey_self]
      · rw [if_neg hk]
        cases hl : rest.lookup k with
        | none => exact lookup_setKey_ne d a k b hk
        | some w => rfl

theorem str_ext {a b : String} (h : a.data = b.data) : a = b :=
  congrArg String.mk h

theorem sdata_append (a b : String) : (a ++ b).data = a.data ++ b.data := by
  cases a; cases b; rfl

theorem sdata_empty : ("" : String).data = [] := rfl

theorem sapp_assoc (a b c : String) : a ++ b ++ c = a ++ (b ++ c) := by
  apply str_ext
  simp [sdata_append]

theorem sapp_empty (a : String) : a ++ "" = a := by
  apply str_ext
  simp [sdata_append, sdata_empty]

theorem empty_sapp (a : String) : "" ++ a = a := by
  apply str_ext
  simp [sdata_append, sdata_empty]

/-- Python slice `s[: len(s) - 1]` on a string: all characters but the last
one; on the empty string the slice bound is `-1` and the result is empty. -/
def sliceDropLast (s : String) : String :=
  String.mk s.data.dropLast

/-- Python `sep.join(l)`. -/
def pyJoin (sep : String) : List String → String
  | [] => ""
  | [x] => x
  | x :: y :: ys => x ++ sep ++ pyJoin sep (y :: ys)

/-- Python `name.startswith("_")`: true when the first character is the
underscore. -/
def underscoreName (name : String) : Bool :=
  match name.data with
  | c :: _ => c == '_'
  | [] => false

/-- The test `el[0] == '-'` applied to a non-empty token. -/
def dashTok (t : String) : Bool :=
  match t.data with
  | c :: _ => c == '-'
  | [] => false

/-- Number of double-quote characters in a string. -/
def dqc (s : String) : Nat :=
  s.data.countP (fun c => c == '"')

theorem dqc_append (a b : String) : dqc (a ++ b) = dqc a + dqc b := by
  unfold dqc
  rw [sdata_append, List.countP_append]

/-- The single-quote replacement performed by `parse_cmd` before
tokenizing: every single-quote character gets a backslash put in front of
it. -/
def escapeSingleQuotes (s : String) : String :=
  String.mk (s.data.foldr
    (fun c acc => if c == Char.ofNat 39 then '\\' :: c :: acc else c :: acc) [])

/-- Lexer state of `shlex` in posix whitespace-split mode: between tokens,
inside a plain word, inside a quote, after an escape character in a plain
word, or after an escape character inside a double quote. -/
inductive ShState where
  | ws
  | word
  | inQuote (q : Char)
  | esc
  | escDq
deriving DecidableEq

/-- Characters `shlex` treats as whitespace. -/
def shWhitespace (c : Char) : Bool :=
  c == ' ' || c == '\t' || c == '\r' || c == '\n'

/-- One pass of the `shlex` tokenizer (posix mode, whitespace_split, no
comment characters, as used by `shlex.split`).  `tok` is the token being
built, `quoted` records whether the current token saw a quote (so that an
empty quoted token is still emitted), `acc` the finished tokens.  An open
quote or a trailing escape character at end of input is a `ValueError`. -/
def shlexRun : List Char → ShState → List Char → Bool → List String →
    Except Unit (List String)
  | [], st, tok, quoted, acc =>
    match st with
    | .inQuote _ => .error ()
    | .esc => .error ()
    | .escDq => .error ()
    | _ =>
      if tok ≠ [] ∨ quoted then .ok (acc ++ [String.mk tok]) else .ok acc
  | c :: rest, st, tok, quoted, acc =>
    match st with
    | .ws =>
      if shWhitespace c then shlexRun rest .ws tok quoted acc
      else if c == '\\' then shlexRun rest .esc tok quoted acc
      else if c == Char.ofNat 39 || c == '"' then shlexRun rest (.inQuote c) tok quoted acc
      else shlexRun rest .word (tok ++ [c]) quoted acc
    | .word =>
      if shWhitespace c then
        if tok ≠ [] ∨ quoted then shlexRun rest .ws [] false (acc ++ [String.mk tok])
        else shlexRun rest .ws tok quoted acc
      else if c == '\\' then shlexRun rest .esc tok quoted acc
      else if c == Char.ofNat 39 || c == '"' then shlexRun rest (.inQuote c) tok quoted acc
      else shlexRun rest .word (tok ++ [c]) quoted acc
    | .inQuote q =>
      if c == q then shlexRun rest .word tok true acc
      else if c == '\\' && q == '"' then shlexRun rest .escDq tok true acc
      else shlexRun rest (.inQuote q) (tok ++ [c]) true acc
    | .esc => shlexRun rest .word (tok ++ [c]) quoted acc
    | .escDq =>
      if c == '\\' || c == '"' then shlexRun rest (.inQuote '"') (tok ++ [c]) quoted acc
      else shlexRun rest (.inQuote '"') (tok ++ ['\\', c]) quoted acc

/-- Model of `shlex.split(s)` (posix mode, whitespace_split): the token list,
or a `ValueError` for an unterminated quote or trailing escape character. -/
def shlexSplit (s : String) : Except Unit (List String) :=
  shlexRun s.data .ws [] false []

/-- The token loop of `parse_cmd` (lines 92 to 103 of the source): `acc` is
`switches[0]` under construction, `started` is `switches_started`, `flags`
the tokens appended after position 0.  Evaluating `el[0]` on an empty token
raises an `IndexError`. -/
def switchLoop : List String → String → Bool → List String →
    Except PyErr (String × List String)
  | [], acc, _, flags => .ok (acc, flags)
  | el :: rest, acc, started, flags =>
    if el = "" then .error .indexError
    else
      let started2 := started || dashTok el
      if started2 then switchLoop rest acc started2 (flags ++ [el])
      else switchLoop rest (acc ++ (el ++ " ")) started2 flags

/-- The prompt/flag split of `parse_cmd`: the pre-flag tokens are joined with
trailing spaces into `switches[0]`, which then loses its final character, and
the flag tokens follow. -/
def splitSwitches (elements : List String) : Except PyErr (List String) :=
  match switchLoop elements "" false [] with
  | .error e => .error e
  | .ok (p, flags) => .ok (sliceDropLast p :: flags)

/-- Spec reading of the prompt segment: all tokens strictly before the first
token that begins with a dash. -/
def promptTokens (els : List String) : List String :=
  els.takeWhile (fun t => !(dashTok t))

/-- Spec reading of the flag segment: the first dash-prefixed token and every
token after it. -/
def flagTokens (els : List String) : List String :=
  els.dropWhile (fun t => !(dashTok t))

/-- Space-joined concatenation with a trailing space after every token, as
`switches[0]` accumulates it. -/
def jtail : List String → String
  | [] => ""
  | x :: xs => x ++ " " ++ jtail xs

theorem jtail_data_ne_nil (l : List String) (h : l ≠ []) :
    (jtail l).data ≠ [] := by
  cases l with
  | nil => exact absurd rfl h
  | cons x xs =>
    show ((x ++ " ") ++ jtail xs).data ≠ []
    rw [sdata_append, sdata_append]
    intro hc
    have : (" " : String).data = [' '] := rfl
    simp [this] at hc

theorem sliceDropLast_append (a b : String) (h : b.data ≠ []) :
    sliceDropLast (a ++ b) = a ++ sliceDropLast b := by
  apply str_ext
  unfold sliceDropLast
  rw [sdata_append]
  show (a.data ++ b.data).dropLast = (a ++ String.mk b.data.dropLast).data
  rw [sdata_append]
  exact List.dropLast_append_of_ne_nil a.data h

/-- Dropping the trailing space of the accumulated prompt text gives exactly
the space-joined prompt tokens. -/
theorem sliceDropLast_jtail (l : List String) :
    sliceDropLast (jtail l) = pyJoin " " l := by
  induction l with
  | nil => rfl
  | cons x xs ih =>
    cases xs with
    | nil =>
      show sliceDropLast ((x ++ " ") ++ "") = x
      rw [sapp_empty]
      apply str_ext
      unfold sliceDropLast
      rw [sdata_append]
      show (x.data ++ [' ']).dropLast = x.data
      exact List.dropLast_concat
    | cons y ys =>
      show sliceDropLast ((x ++ " ") ++ jtail (y :: ys)) = (x ++ " ") ++ pyJoin " " (y :: ys)
      rw [sliceDropLast_append _ _ (jtail_data_ne_nil _ (by simp)), ih]

theorem switchLoop_flags (rest : List String) (acc : String) (flags : List String)
    (h : ∀ t ∈ rest, t ≠ "") :
    switchLoop rest acc true flags = .ok (acc, flags ++ rest) := by
  induction rest generalizing flags with
  | nil => simp [switchLoop]
  | cons el r ih =>
    have hel : el ≠ "" := h el (List.mem_cons_self el r)
    rw [switchLoop, if_neg hel]
    simp only [Bool.true_or, if_pos rfl]
    rw [ih (flags ++ [el]) (fun t ht => h t (List.mem_cons_of_mem el ht))]
    simp [List.append_assoc]

theorem switchLoop_split (els : List String) (acc : String)
    (h : ∀ t ∈ els, t ≠ "") :
    switchLoop els acc false [] =
      .ok (acc ++ jtail (promptTokens els), flagTokens els) := by
  induction els generalizing acc with
  | nil =>
    show Except.ok (acc, []) = _
    rw [show promptTokens [] = [] from rfl, show flagTokens [] = [] from rfl,
      show jtail [] = "" from rfl, sapp_empty]
  | cons el r ih =>
    have hel : el ≠ "" := h el (List.mem_cons_self el r)
    rw [switchLoop, if_neg hel]
    cases hd : dashTok el with
    | true =>
      have hp1 : promptTokens (el :: r) = [] := by
        simp [promptTokens, List.takeWhile_cons, hd]
      have hf1 : flagTokens (el :: r) = el :: r := by
        simp [flagTokens, List.dropWhile_cons, hd]
      simp only [hd, Bool.false_or, if_true, List.nil_append]
      rw [switchLoop_flags r acc [el] (fun t ht => h t (List.mem_cons_of_mem el ht))]
      rw [hp1, hf1, show jtail [] = "" from rfl, sapp_empty]
      rfl
    | false =>
      have hp1 : promptTokens (el :: r) = el :: promptTokens r := by
        simp [promptTokens, List.takeWhile_cons, hd]
      have hf1 : flagTokens (el :: r) = flagTokens r := by
        simp [flagTokens, List.dropWhile_cons, hd]
      simp only [hd, Bool.false_or]
      rw [if_neg Bool.false_ne_true]
      rw [ih (acc ++ (el ++ " ")) (fun t ht => h t (List.mem_cons_of_mem el ht))]
      rw [hp1, hf1]
      rw [show jtail (el :: promptTokens r) = el ++ " " ++ jtail (promptTokens r) from rfl]
      rw [← sapp_assoc acc (el ++ " ") (jtail (promptTokens r))]

/-- When every token is non-empty, the split produces the space-joined prompt
text followed by the flag tokens. -/
theorem splitSwitches_eq (els : List String) (h : ∀ t ∈ els, t ≠ "") :
    splitSwitches els = .ok (pyJoin " " (promptTokens els) :: flagTokens els) := by
  unfold splitSwitches
  rw [switchLoop_split els "" h]
  show Except.ok (sliceDropLast ("" ++ jtail (promptTokens els)) :: flagTokens els) = _
  rw [empty_sapp, sliceDropLast_jtail]

/-- The closed sampler name set declared at the top of the module. -/
def SAMPLER_CHOICES : List String :=
  ["ddim", "k_dpm_2_a", "k_dpm_2", "k_euler_a", "k_euler", "k_heun", "k_lms", "plms"]

/-- Digit run to a natural number. -/
def digitsVal (l : List Char) : Nat :=
  l.foldl (fun acc c => acc * 10 + (c.toNat - 48)) 0

/-- Python `int(s)` on decimal forms: optional surrounding whitespace, an
optional sign and a non-empty digit run. -/
def pyInt? (s : String) : Option Int :=
  let l := (s.data.dropWhile shWhitespace).reverse.dropWhile shWhitespace
  match l.reverse with
  | [] => Option.none
  | '-' :: ds =>
    if ds ≠ [] ∧ ds.all Char.isDigit then some (-(digitsVal ds : Int)) else Option.none
  | '+' :: ds =>
    if ds ≠ [] ∧ ds.all Char.isDigit then some (digitsVal ds : Int) else Option.none
  | ds =>
    if ds.all Char.isDigit then some (digitsVal ds : Int) else Option.none

/-- Value of `ip.fp` as an exact decimal. -/
def decimalOf (ip fp : List Char) : Dec :=
  mkDec (Int.ofNat (digitsVal ip * 10 ^ fp.length + digitsVal fp)) fp.length

/-- Unsigned decimal mantissa: `digits`, `digits.`, `digits.digits` or
`.digits`. -/
def mantissaOf (l : List Char) : Option Dec :=
  match l.span Char.isDigit with
  | (ip, []) => if ip ≠ [] then some (decimalOf ip []) else Option.none
  | (ip, '.' :: fp) =>
    if (ip ≠ [] ∨ fp ≠ []) ∧ fp.all Char.isDigit then some (decimalOf ip fp)
    else Option.none
  | _ => Option.none

/-- Signed decimal exponent digits. -/
def expOf (l : List Char) : Option Int :=
  match l with
  | '-' :: ds =>
    if ds ≠ [] ∧ ds.all Char.isDigit then some (-(digitsVal ds : Int)) else Option.none
  | '+' :: ds =>
    if ds ≠ [] ∧ ds.all Char.isDigit then some (digitsVal ds : Int) else Option.none
  | ds =>
    if ds ≠ [] ∧ ds.all Char.isDigit then some (digitsVal ds : Int) else Option.none

/-- Shift a decimal by a signed power of ten. -/
def applyExp (d : Dec) (e : Int) : Dec :=
  if 0 ≤ e then mkDec (d.mant * Int.ofNat (10 ^ e.toNat)) d.exp10
  else mkDec d.mant (d.exp10 + (-e).toNat)

/-- Python `float(s)` on finite decimal forms (optionally with an exponent);
the special spellings inf and nan are outside the modeled fragment. -/
def pyFloat? (s : String) : Option Dec :=
  let l := (s.data.dropWhile shWhitespace).reverse.dropWhile shWhitespace
  let signed :=
    fun (l : List Char) =>
      match l.span (fun c => !(c == 'e' || c == 'E')) with
      | (mant, []) => mantissaOf mant
      | (mant, _ :: ex) =>
        match mantissaOf mant, expOf ex with
        | some m, some e => some (applyExp m e)
        | _, _ => Option.none
  match l.reverse with
  | '-' :: rest => (signed rest).map (fun d => mkDec (-d.mant) d.exp10)
  | '+' :: rest => signed rest
  | rest => signed rest

/-- The negative-number pattern of argparse: a dash followed by digits, or by
digits, a point and more digits.  Since no declared option string looks like a
negative number, tokens of this shape count as positional values. -/
def isNegNumTok (t : String) : Bool :=
  match t.data with
  | '-' :: rest =>
    (rest ≠ [] && rest.all Char.isDigit) ||
      (match rest.span Char.isDigit with
       | (_, '.' :: fp) => fp ≠ [] && fp.all Char.isDigit
       | _ => false)
  | _ => false

/-- Classification used by argparse for each token: an option token starts
with a dash, has more than one character, contains no space and does not look
like a negative number. -/
def isOptTok (t : String) : Bool :=
  match t.data with
  | [] => false
  | [_] => false
  | c :: _ :: _ => c == '-' && !(t.data.contains ' ') && !(isNegNumTok t)

/-- Action kinds taken by the options of `_create_cmd_parser`. -/
inductive OptKind where
  | storeTrue
  | argStr
  | argInt
  | argFloat
  | argChoice (choices : List String)
  | plusFloat
  | plusInt
  | help
deriving DecidableEq

/-- The option table of `_create_cmd_parser`: option strings, destination and
action kind, in declaration order (the help action is installed implicitly by
the parsing library). -/
def cmdOptions : List (List String × String × OptKind) :=
  [ (["-h", "--help"], "help", .help),
    (["-s", "--steps"], "steps", .argInt),
    (["-S", "--seed"], "seed", .argInt),
    (["-n", "--iterations"], "iterations", .argInt),
    (["-W", "--width"], "width", .argInt),
    (["-H", "--height"], "height", .argInt),
    (["-C", "--cfg_scale"], "cfg_scale", .argFloat),
    (["--grid", "-g"], "grid", .storeTrue),
    (["--outdir", "-o"], "outdir", .argStr),
    (["--seamless"], "seamless", .storeTrue),
    (["-i", "--individual"], "individual", .storeTrue),
    (["-I", "--init_img"], "init_img", .argStr),
    (["-M", "--init_mask"], "init_mask", .argStr),
    (["-T", "-fit", "--fit"], "fit", .storeTrue),
    (["-f", "--strength"], "strength", .argFloat),
    (["-G", "--gfpgan_strength"], "gfpgan_strength", .argFloat),
    (["-U", "--upscale"], "upscale", .plusFloat),
    (["--save_original", "-save_orig"], "save_original", .storeTrue),
    (["--embiggen", "-embiggen"], "embiggen", .plusFloat),
    (["--embiggen_tiles", "-embiggen_tiles"], "embiggen_tiles", .plusInt),
    (["-x", "--skip_normalize"], "skip_normalize", .storeTrue),
    (["-A", "-m", "--sampler"], "sampler_name", .argChoice SAMPLER_CHOICES),
    (["-t", "--log_tokenization"], "log_tokenization", .storeTrue),
    (["-v", "--variation_amount"], "variation_amount", .argFloat),
    (["-V", "--with_variations"], "with_variations", .argStr) ]

/-- Exact lookup of an option string in the table. -/
def findOpt (t : String) : Option (String × OptKind) :=
  (cmdOptions.find? (fun e => e.1.contains t)).map (fun e => e.2)

/-- Type conversion and choice check applied by argparse to a consumed option
value. -/
def convert (kind : OptKind) (t : String) : Except Unit PyVal :=
  match kind with
  | .argStr => .ok (.str t)
  | .argInt =>
    match pyInt? t with
    | some n => .ok (.int n)
    | Option.none => .error ()
  | .argFloat =>
    match pyFloat? t with
    | some q => .ok (.float q)
    | Option.none => .error ()
  | .argChoice cs => if cs.contains t then .ok (.str t) else .error ()
  | _ => .error ()

/-- Parser mode while scanning the token list: at top level, expecting the
single value of an option, or collecting the one-or-more values of a
`nargs` plus option. -/
inductive PMode where
  | top
  | need (dest : String) (kind : OptKind)
  | plusF (dest : String) (acc : List Dec)
  | plusI (dest : String) (acc : List Int)
deriving DecidableEq

/-- Start the action of an option token: `explicit` carries a value attached
as `--name=value` or `-xVALUE`.  A help option, an unknown option, an
attached value on a flag or a failed conversion all take the parsing library
error path (usage message and process exit). -/
def startAction (dest : String) (kind : OptKind) (explicit : Option String)
    (ns : NS) : Except Unit (NS × PMode) :=
  match kind, explicit with
  | .help, _ => .error ()
  | .storeTrue, Option.none => .ok (setKey ns dest (.bool true), .top)
  | .storeTrue, some _ => .error ()
  | .plusFloat, Option.none => .ok (ns, .plusF dest [])
  | .plusFloat, some v =>
    match pyFloat? v with
    | some q => .ok (setKey ns dest (.floatList [q]), .top)
    | Option.none => .error ()
  | .plusInt, Option.none => .ok (ns, .plusI dest [])
  | .plusInt, some v =>
    match pyInt? v with
    | some n => .ok (setKey ns dest (.intList [n]), .top)
    | Option.none => .error ()
  | k, Option.none => .ok (ns, .need dest k)
  | k, some v =>
    match convert k v with
    | .ok pv => .ok (setKey ns dest pv, .top)
    | .error e => .error e

/-- Resolve an option token: exact table match first, then the
`--name=value` and `-xVALUE` attached forms. -/
def processOpt (t : String) (ns : NS) : Except Unit (NS × PMode) :=
  match findOpt t with
  | some (dest, kind) => startAction dest kind Option.none ns
  | Option.none =>
    match t.data with
    | '-' :: '-' :: _ =>
      (match t.data.span (fun c => !(c == '=')) with
       | (name, '=' :: v) =>
         (match findOpt (String.mk name) with
          | some (dest, kind) => startAction dest kind (some (String.mk v)) ns
          | Option.none => .error ())
       | _ => .error ())
    | '-' :: c :: rest =>
      (match rest with
       | [] => .error ()
       | _ =>
         match findOpt (String.mk ['-', c]) with
         | some (dest, kind) => startAction dest kind (some (String.mk rest)) ns
         | Option.none => .error ())
    | _ => .error ()

/-- Token scan of `parse_args` for the command parser: a single required
positional `prompt` plus the declared options.  `noMoreOpts` is set after a
bare double dash, `promptSeen` once the positional is filled.  Every argparse
error (unknown option, missing or ill-typed value, invalid choice, extra
positional, missing positional) ends in the library error path. -/
def runTokens : List String → PMode → Bool → Bool → NS → Except Unit NS
  | [], mode, _, promptSeen, ns =>
    (match mode with
     | .top => if promptSeen then .ok ns else .error ()
     | .need _ _ => .error ()
     | .plusF dest acc =>
       if acc = [] then .error () else .ok (setKey ns dest (.floatList acc.reverse))
     | .plusI dest acc =>
       if acc = [] then .error () else .ok (setKey ns dest (.intList acc.reverse)))
  | t :: rest, mode, noMoreOpts, promptSeen, ns =>
    match mode with
    | .top =>
      if !noMoreOpts && t == "--" then runTokens rest .top true promptSeen ns
      else if !noMoreOpts && isOptTok t then
        (match processOpt t ns with
         | .error e => .error e
         | .ok (ns2, m2) => runTokens rest m2 noMoreOpts promptSeen ns2)
      else
        if promptSeen then .error ()
        else runTokens rest .top noMoreOpts true (setKey ns "prompt" (.str t))
    | .need dest kind =>
      if !noMoreOpts && isOptTok t then .error ()
      else
        (match convert kind t with
         | .error e => .error e
         | .ok v => runTokens rest .top noMoreOpts promptSeen (setKey ns dest v))
    | .plusF dest acc =>
      if !noMoreOpts && (t == "--" || isOptTok t) then
        if acc = [] then .error ()
        else
          (if t == "--" then
            runTokens rest .top true promptSeen (setKey ns dest (.floatList acc.reverse))
          else
            match processOpt t (setKey ns dest (.floatList acc.reverse)) with
            | .error e => .error e
            | .ok (ns3, m3) => runTokens rest m3 noMoreOpts promptSeen ns3)
      else
        (match pyFloat? t with
         | Option.none => .error ()
         | some q => runTokens rest (.plusF dest (q :: acc)) noMoreOpts promptSeen ns)
    | .plusI dest acc =>
      if !noMoreOpts && (t == "--" || isOptTok t) then
        if acc = [] then .error ()
        else
          (if t == "--" then
            runTokens rest .top true promptSeen (setKey ns dest (.intList acc.reverse))
          else
            match processOpt t (setKey ns dest (.intList acc.reverse)) with
            | .error e => .error e
            | .ok (ns3, m3) => runTokens rest m3 noMoreOpts promptSeen ns3)
      else
        (match pyInt? t with
         | Option.none => .error ()
         | some n => runTokens rest (.plusI dest (n :: acc)) noMoreOpts promptSeen ns)

/-- Defaults of the command parser namespace, in action declaration order.
The parsing library applies `type` only to string defaults, so the
`gfpgan_strength` default `0` stays an integer while `variation_amount`
declares the float `0.0`; `prompt` starts as `None` until the positional is
consumed. -/
def cmdDefaults : NS :=
  [ ("prompt", .none),
    ("steps", .int 50),
    ("seed", .none),
    ("iterations", .int 1),
    ("width", .int 512),
    ("height", .int 512),
    ("cfg_scale", .float (mkDec 75 1)),
    ("grid", .bool false),
    ("outdir", .str "outputs/img-samples"),
    ("seamless", .bool false),
    ("individual", .bool false),
    ("init_img", .str ""),
    ("init_mask", .str ""),
    ("fit", .bool false),
    ("strength", .float (mkDec 75 2)),
    ("gfpgan_strength", .int 0),
    ("upscale", .none),
    ("save_original", .bool false),
    ("embiggen", .none),
    ("embiggen_tiles", .none),
    ("skip_normalize", .bool false),
    ("sampler_name", .str "k_lms"),
    ("log_tokenization", .bool false),
    ("variation_amount", .float (mkDec 0 0)),
    ("with_variations", .none) ]

/-- Model of `self._cmd_parser.parse_args(argv)`: defaults first, then the
token scan; any parse error is the library error path. -/
def cmdParseArgs (argv : List String) : Except Unit NS :=
  runTokens argv .top false false cmdDefaults

/-- Python `str()` of an exact decimal float: sign, integer digits, point,
fraction digits, with `.0` for integral values (the form Python prints for
every float value reachable in this module). -/
def pyFloatStr (d : Dec) : String :=
  let n := d.mant.natAbs
  let sign := if d.mant < 0 then "-" else ""
  if d.exp10 = 0 then sign ++ toString n ++ ".0"
  else
    let ds := (toString n).data
    let k := ds.length
    if k ≤ d.exp10 then
      sign ++ "0." ++ String.mk (List.replicate (d.exp10 - k) '0' ++ ds)
    else
      sign ++ String.mk (ds.take (k - d.exp10)) ++ "." ++ String.mk (ds.drop (k - d.exp10))

/-- Python `str()` of a (seed, weight) tuple. -/
def pyPairStr (p : Int × Dec) : String :=
  "(" ++ toString p.1 ++ ", " ++ pyFloatStr p.2 ++ ")"

/-- Python `str()` of a stored value, as interpolated by the f-strings of
`prompt_str`. -/
def pyStr : PyVal → String
  | .none => "None"
  | .bool b => if b then "True" else "False"
  | .int n => toString n
  | .float d => pyFloatStr d
  | .str s => s
  | .floatList l => "[" ++ pyJoin ", " (l.map pyFloatStr) ++ "]"
  | .intList l => "[" ++ pyJoin ", " (l.map (fun n => toString n)) ++ "]"
  | .pairList l => "[" ++ pyJoin ", " (l.map pyPairStr) ++ "]"

/-- Python truthiness of a stored value. -/
def pyTruthy : PyVal → Bool
  | .none => false
  | .bool b => b
  | .int n => n != 0
  | .float d => d.mant != 0
  | .str s => !s.data.isEmpty
  | .floatList l => !l.isEmpty
  | .intList l => !l.isEmpty
  | .pairList l => !l.isEmpty

/-- Python `len()` of a stored value. -/
def pyLen : PyVal → Except PyErr Nat
  | .str s => .ok s.data.length
  | .floatList l => .ok l.length
  | .intList l => .ok l.length
  | .pairList l => .ok l.length
  | _ => .error .typeError

/-- Python `x > 0` on a stored value. -/
def pyGt0 : PyVal → Except PyErr Bool
  | .int n => .ok (decide (0 < n))
  | .float d => .ok (decide (0 < d.mant))
  | .bool b => .ok b
  | _ => .error .typeError

/-- Dictionary subscript `a[k]`; a missing key is a `KeyError`. -/
def item (a : NS) (k : String) : Except PyErr PyVal :=
  match a.lookup k with
  | some v => .ok v
  | Option.none => .error .keyError

/-- `" ".join(str(u) for u in v)` over an iterable value; iterating a string
yields its characters, iterating a number is a `TypeError`. -/
def joinStrElems : PyVal → Except PyErr String
  | .floatList l => .ok (pyJoin " " (l.map pyFloatStr))
  | .intList l => .ok (pyJoin " " (l.map (fun n => toString n)))
  | .pairList l => .ok (pyJoin " " (l.map pyPairStr))
  | .str s => .ok (pyJoin " " (s.data.map (fun c => String.mk [c])))
  | _ => .error .typeError

/-- The `-V` formatting `",".join(f"{seed}:{weight}" for seed, weight in v)`:
it unpacks each element into a pair, so it works on a caller-stored list of
pairs, while the parser-produced string raises a `ValueError` (each character
is a length-one string that cannot unpack into two names) and a number list
raises a `TypeError`. -/
def formatVariations : PyVal → Except PyErr String
  | .pairList l =>
    .ok (pyJoin "," (l.map (fun p => toString p.1 ++ ":" ++ pyFloatStr p.2)))
  | .str _ => .error .valueError
  | _ => .error .typeError

/-- The switch strings accumulated by `prompt_str` after the prompt switch,
in source order; the source line `switches.append(f"-I {a.init_img}")` is an
attribute access on a plain dict, so a non-empty `init_img` raises an
`AttributeError` before the `-I` switch can be produced. -/
def promptTailSwitches (a : NS) : Except PyErr (List String) := do
  let steps ← item a "steps"
  let width ← item a "width"
  let height ← item a "height"
  let cfg ← item a "cfg_scale"
  let sampler ← item a "sampler_name"
  let seed ← item a "seed"
  let base := ["-s " ++ pyStr steps, "-W " ++ pyStr width, "-H " ++ pyStr height,
    "-C " ++ pyStr cfg, "-A " ++ pyStr sampler, "-S " ++ pyStr seed]
  let seam ← item a "seamless"
  let l1 := if pyTruthy seam then base ++ ["--seamless"] else base
  let ii ← item a "init_img"
  let iiLen ← pyLen ii
  if 0 < iiLen then
    .error .attributeError
  else do
    let fitv ← item a "fit"
    let l2 := if pyTruthy fitv then l1 ++ ["--fit"] else l1
    let strv ← item a "strength"
    let l3 ←
      if pyTruthy strv then do
        let ii2 ← item a "init_img"
        let n2 ← pyLen ii2
        pure (if 0 < n2 then l2 ++ ["-f " ++ pyStr strv] else l2)
      else pure l2
    let g ← item a "gfpgan_strength"
    let l4 := if pyTruthy g then l3 ++ ["-G " ++ pyStr g] else l3
    let up ← item a "upscale"
    let l5 ←
      if pyTruthy up then (joinStrElems up).map (fun j => l4 ++ ["-U " ++ j])
      else pure l4
    let em ← item a "embiggen"
    let l6 ←
      if pyTruthy em then (joinStrElems em).map (fun j => l5 ++ ["--embiggen " ++ j])
      else pure l5
    let et ← item a "embiggen_tiles"
    let l7 ←
      if pyTruthy et then (joinStrElems et).map (fun j => l6 ++ ["--embiggen_tiles " ++ j])
      else pure l6
    let va ← item a "variation_amount"
    let vgt ← pyGt0 va
    let l8 := if vgt then l7 ++ ["-v " ++ pyStr va] else l7
    let wv ← item a "with_variations"
    if pyTruthy wv then (formatVariations wv).map (fun fv => l8 ++ ["-V " ++ fv])
    else pure l8

/-- The full switch list of `prompt_str`: the prompt switch is an opening
double quote directly followed by the prompt text, with no closing quote. -/
def promptSwitches (a : NS) : Except PyErr (List String) :=
  match item a "prompt" with
  | .error e => .error e
  | .ok p =>
    match promptTailSwitches a with
    | .error e => .error e
    | .ok rest => .ok (("\"" ++ pyStr p) :: rest)

/-- The configuration object: the two parse records.  The parser handles
`_arg_parser` and `_cmd_parser` are stateless schema values, fully described
by `cmdOptions` and the defaults, so they are not carried in the state. -/
structure Args where
  _arg_switches : NS
  _cmd_switches : NS
deriving DecidableEq

/-- Defaults of the startup parser namespace, in action declaration order,
for a process started without startup flags (the `--port` default is the
string `"9090"`, which the library converts through the declared int type). -/
def argDefaults : NS :=
  [ ("laion400m", .none),
    ("weights", .none),
    ("conf", .str "./configs/models.yaml"),
    ("model", .str "stable-diffusion-1.4"),
    ("infile", .none),
    ("full_precision", .bool false),
    ("outdir", .str "outputs/img-samples"),
    ("seamless", .bool false),
    ("grid", .bool false),
    ("embedding_path", .none),
    ("prompt_as_dir", .bool false),
    ("gfpgan_bg_upsampler", .str "realesrgan"),
    ("gfpgan_bg_tile", .int 400),
    ("gfpgan_model_path", .str "experiments/pretrained_models/GFPGANv1.3.pth"),
    ("gfpgan_dir", .str "./src/gfpgan"),
    ("web", .bool false),
    ("host", .str "127.0.0.1"),
    ("port", .int 9090) ]

/-- The command namespace produced by `parse_cmd("")`, as built during
`__init__`. -/
def emptyCmdNS : NS := setKey cmdDefaults "prompt" (.str "")

/-- The object right after `Args.__init__` for a process started without
startup flags: both records filled with their defaults. -/
def initArgs : Args := ⟨argDefaults, emptyCmdNS⟩

/-- The non-underscore attributes that `object.__getattribute__` finds on the
class before the merge layer is consulted: the five public methods. -/
def argsPublicMethods : List String :=
  ["parse_args", "parse_cmd", "json", "to_dict", "prompt_str"]

/-- Result of an attribute read on the object: a merged-record value, a bound
method, the (mutated) full mapping, one of the record handles, a parser
handle, or an `AttributeError`. -/
inductive AttrResult where
  | val (v : PyVal)
  | method (name : String)
  | dict (d : NS)
  | record (d : NS)
  | parserHandle
  | error
deriving DecidableEq

/-- Model of `Args.__getattribute__`.  The `__dict__` branch binds `a` to the
dict object of `_arg_switches` and calls `a.update(...)` on it, so the read
returns the merged mapping and, as a side effect, turns the startup record
into that merged mapping.  Any other name is looked up on the object first
(instance fields, then class methods); unknown names fall through to the
command record, then the startup record, and finally an `AttributeError`. -/
def Args.getattribute (st : Args) (name : String) : AttrResult × Args :=
  if name = "__dict__" then
    (.dict (dictUpdate st._arg_switches st._cmd_switches),
      { st with _arg_switches := dictUpdate st._arg_switches st._cmd_switches })
  else if name = "_arg_switches" then (.record st._arg_switches, st)
  else if name = "_cmd_switches" then (.record st._cmd_switches, st)
  else if name = "_arg_parser" ∨ name = "_cmd_parser" then (.parserHandle, st)
  else if name ∈ argsPublicMethods
      ∨ name = "_create_arg_parser" ∨ name = "_create_cmd_parser" then
    (.method name, st)
  else
    match st._cmd_switches.lookup name with
    | some v => (.val v, st)
    | Option.none =>
      match st._arg_switches.lookup name with
      | some w => (.val w, st)
      | Option.none => (.error, st)

/-- The write path of `Args.__setattr__` for a name that does not start with
the underscore marker: the value goes into the command record, never the
startup record.  Underscore names go through `object.__setattr__` into the
instance slots; the only such write in the modeled fragment is the record
replacement inside `parse_cmd`, modeled there. -/
def Args.setattr (st : Args) (name : String) (v : PyVal) : Args :=
  { st with _cmd_switches := setKey st._cmd_switches name v }

/-- Model of `Args.parse_cmd`.  Single quotes are escaped, the line is
tokenized, the tokens are split into the prompt and the flags, and the flag
parser replaces the command record.  A tokenization failure enters the
`except` handler, whose first statement reads the names `traceback` and
`sys`; neither module is imported by the file, so the handler itself raises a
`NameError` instead of printing and returning `None`.  An empty token makes
`el[0]` raise an `IndexError`; a flag-parser failure prints usage and raises
`SystemExit`. -/
def Args.parse_cmd (st : Args) (cmd_string : String) : Except PyErr (NS × Args) :=
  match shlexSplit (escapeSingleQuotes cmd_string) with
  | .error _ => .error .nameError
  | .ok elements =>
    match splitSwitches elements with
    | .error e => .error e
    | .ok switches =>
      match cmdParseArgs switches with
      | .error _ => .error .systemExit
      | .ok ns => .ok (ns, { st with _cmd_switches := ns })

/-- Model of `Args.to_dict(**kwargs)`: `a = vars(self)` aliases the startup
record dict (already merged with the command record by the `__dict__` read),
and `a.update(kwargs)` mutates it further, so the returned mapping and the
new startup record are the same merged dict. -/
def Args.to_dict (st : Args) (kwargs : NS) : NS × Args :=
  let a := dictUpdate (dictUpdate st._arg_switches st._cmd_switches) kwargs
  (a, { st with _arg_switches := a })

/-- Model of `Args.prompt_str(**kwargs)`: the effective mapping (with the
same aliasing side effect as `to_dict`), then the switch list joined with
single spaces. -/
def Args.prompt_str (st : Args) (kwargs : NS) : Except PyErr String × Args :=
  let a := dictUpdate (dictUpdate st._arg_switches st._cmd_switches) kwargs
  ((promptSwitches a).map (pyJoin " "), { st with _arg_switches := a })

theorem ne_of_not_underscore {name : String} (h : underscoreName name = false)
    {s : String} (hs : underscoreName s = true) : name ≠ s := by
  intro he
  rw [he, hs] at h
  exact Bool.noConfusion h

/-- For a non-underscore name that is not a method, the read falls through to
the command record, then the startup record, then an `AttributeError`. -/
theorem getattr_fallthrough (st : Args) (name : String)
    (h1 : underscoreName name = false)
    (h2 : name ∉ argsPublicMethods) :
    Args.getattribute st name =
      ((match st._cmd_switches.lookup name with
        | some v => AttrResult.val v
        | Option.none =>
          match st._arg_switches.lookup name with
          | some w => AttrResult.val w
          | Option.none => AttrResult.error), st) := by
  unfold Args.getattribute
  rw [if_neg (ne_of_not_underscore h1 (by rfl))]
  rw [if_neg (ne_of_not_underscore h1 (by rfl))]
  rw [if_neg (ne_of_not_underscore h1 (by rfl))]
  rw [if_neg (fun hor => hor.elim
    (fun he => ne_of_not_underscore h1 (by rfl) he)
    (fun he => ne_of_not_underscore h1 (by rfl) he))]
  rw [if_neg (fun hor => by
    rcases hor with hm | he | he
    · exact h2 hm
    · exact ne_of_not_underscore h1 (by rfl) he
    · exact ne_of_not_underscore h1 (by rfl) he)]
  cases hc : st._cmd_switches.lookup name with
  | some v => rfl
  | none =>
    cases ha : st._arg_switches.lookup name with
    | some w => rfl
    | none => rfl

/-- Re-parsing the empty command string always replaces the command record
with the default namespace whose prompt is the empty string. -/
theorem parse_cmd_empty (st : Args) :
    Args.parse_cmd st "" = .ok (emptyCmdNS, { st with _cmd_switches := emptyCmdNS }) := rfl

/-- C1: for every attribute name read on the configuration object that is not
one of its own attributes (modeled here by the hypotheses that the name does
not carry the internal underscore marker and is not one of the five public
method names, which together cover everything the object lookup finds first):
if the name is present in both records the read returns the command-record
value; if it is present in exactly one record the read returns that record
value; if it is present in neither the read fails with an attribute-not-found
error. -/
theorem C1_read_precedence (st : Args) (name : String)
    (h1 : underscoreName name = false)
    (h2 : name ∉ argsPublicMethods) :
    Args.getattribute st name =
      ((match st._cmd_switches.lookup name with
        | some v => AttrResult.val v
        | Option.none =>
          match st._arg_switches.lookup name with
          | some w => AttrResult.val w
          | Option.none => AttrResult.error), st) :=
  getattr_fallthrough st name h1 h2

/-- An object whose records disagree on `model`: the startup record holds
`"a"`, the command record `"b"`, and only the command record holds `steps`. -/
def exampleArgs1 : Args :=
  ⟨[("model", .str "a")], [("model", .str "b"), ("steps", .int 9)]⟩

/-- Witness for C1 at a concrete object: a name present in both records reads
the command value, a name present in one record reads that value, and an
unknown name errors. -/
theorem C1_read_precedence_witness :
    underscoreName "model" = false ∧ "model" ∉ argsPublicMethods ∧
    Args.getattribute exampleArgs1 "model" = (.val (.str "b"), exampleArgs1) ∧
    Args.getattribute exampleArgs1 "steps" = (.val (.int 9), exampleArgs1) ∧
    Args.getattribute exampleArgs1 "nosuch" = (.error, exampleArgs1) :=
  ⟨by decide, by decide,
    C1_read_precedence exampleArgs1 "model" (by decide) (by decide),
    C1_read_precedence exampleArgs1 "steps" (by decide) (by decide),
    C1_read_precedence exampleArgs1 "nosuch" (by decide) (by decide)⟩

/-- C3 counterexample: `json` is a non-underscore attribute name, assignment
does write it into the command record, but the next read returns the bound
method found by the object lookup, not the written value, so the claim fails
as stated at this name. -/
theorem C3_write_cex :
    underscoreName "json" = false
    ∧ (Args.setattr initArgs "json" (.int 5))._cmd_switches.lookup "json" = some (.int 5)
    ∧ (Args.getattribute (Args.setattr initArgs "json" (.int 5)) "json").1 = .method "json"
    ∧ (Args.getattribute (Args.setattr initArgs "json" (.int 5)) "json").1 ≠ .val (.int 5) :=
  ⟨by decide, by decide, by decide, by decide⟩

/-- C3 amended: for every non-underscore attribute name that is not the name
of one of the public methods of the object, assignment writes the value into the
command record (never the startup record), the next read returns the written
value, shadowing any same-named startup value, and a subsequent full re-parse
replaces the whole command record. -/
theorem C3_write_amended (st : Args) (name : String) (v : PyVal)
    (h1 : underscoreName name = false)
    (h2 : name ∉ argsPublicMethods) :
    (Args.setattr st name v)._cmd_switches.lookup name = some v
    ∧ (Args.setattr st name v)._arg_switches = st._arg_switches
    ∧ (Args.getattribute (Args.setattr st name v) name).1 = .val v
    ∧ Args.parse_cmd (Args.setattr st name v) ""
        = .ok (emptyCmdNS, { st with _cmd_switches := emptyCmdNS }) := by
  refine ⟨lookup_setKey_self _ _ _, rfl, ?_, parse_cmd_empty (Args.setattr st name v)⟩
  rw [getattr_fallthrough (Args.setattr st name v) name h1 h2]
  show (match (setKey st._cmd_switches name v).lookup name with
    | some v => AttrResult.val v
    | Option.none =>
      match st._arg_switches.lookup name with
      | some w => AttrResult.val w
      | Option.none => AttrResult.error) = AttrResult.val v
  rw [lookup_setKey_self]

/-- Witness for C3 at a concrete write: a fresh field name on the default
object. -/
theorem C3_write_amended_witness :
    underscoreName "myfield" = false ∧ "myfield" ∉ argsPublicMethods ∧
    ((Args.setattr initArgs "myfield" (.int 3))._cmd_switches.lookup "myfield"
        = some (.int 3)
      ∧ (Args.setattr initArgs "myfield" (.int 3))._arg_switches = initArgs._arg_switches
      ∧ (Args.getattribute (Args.setattr initArgs "myfield" (.int 3)) "myfield").1
          = .val (.int 3)
      ∧ Args.parse_cmd (Args.setattr initArgs "myfield" (.int 3)) ""
          = .ok (emptyCmdNS, { initArgs with _cmd_switches := emptyCmdNS })) :=
  ⟨by decide, by decide,
    C3_write_amended initArgs "myfield" (.int 3) (by decide) (by decide)⟩

/-- C4: calling `parse_cmd` with the empty string replaces the whole command
record, whatever its prior contents, by a freshly parsed record in which
every command field holds its declared default and the prompt text is empty
(the `gfpgan_strength` default stays the integer zero because the parsing
library converts only string defaults through the declared type). -/
theorem C4_empty_reparse_defaults (st : Args) :
    Args.parse_cmd st "" = .ok (emptyCmdNS, { st with _cmd_switches := emptyCmdNS })
    ∧ emptyCmdNS =
      [ ("prompt", .str ""),
        ("steps", .int 50),
        ("seed", .none),
        ("iterations", .int 1),
        ("width", .int 512),
        ("height", .int 512),
        ("cfg_scale", .float (mkDec 75 1)),
        ("grid", .bool false),
        ("outdir", .str "outputs/img-samples"),
        ("seamless", .bool false),
        ("individual", .bool false),
        ("init_img", .str ""),
        ("init_mask", .str ""),
        ("fit", .bool false),
        ("strength", .float (mkDec 75 2)),
        ("gfpgan_strength", .int 0),
        ("upscale", .none),
        ("save_original", .bool false),
        ("embiggen", .none),
        ("embiggen_tiles", .none),
        ("skip_normalize", .bool false),
        ("sampler_name", .str "k_lms"),
        ("log_tokenization", .bool false),
        ("variation_amount", .float (mkDec 0 0)),
        ("with_variations", .none) ] :=
  ⟨parse_cmd_empty st, by decide⟩

/-- C5: a command string with an unmatched double quote cannot be tokenized;
the `except` handler of the source then evaluates `traceback.format_exc()` with
`traceback` (and `sys`) never imported, so `parse_cmd` raises a `NameError`
instead of printing a diagnostic and returning `None`.  The command record is
not replaced (the exception fires before the assignment) and remains
readable. -/
theorem C5_tokenize_nameerror :
    Args.parse_cmd initArgs "a \"b" = .error PyErr.nameError
    ∧ shlexSplit (escapeSingleQuotes "a \"b") = .error ()
    ∧ (Args.getattribute initArgs "_cmd_switches").1 = .record emptyCmdNS :=
  ⟨rfl, rfl, rfl⟩

/-- C6 counterexample: a sampler value outside the closed set drives the flag
parser into its usage-error path, which raises `SystemExit` and terminates
the process, contrary to the claim that malformed command strings never
terminate it. -/
theorem C6_sampler_exit_cex :
    Args.parse_cmd initArgs "hello -A foo" = .error PyErr.systemExit
    ∧ "foo" ∉ SAMPLER_CHOICES :=
  ⟨rfl, by decide⟩

/-- C6 amended: a command string whose sampler flag names a value outside the
closed set makes the command parser print a usage message and terminate the
process through `SystemExit`, exactly like malformed startup flags; the
command record of the object is not replaced (the error propagates before
the assignment, for any prior state). -/
theorem C6_sampler_exit_amended (st : Args) :
    Args.parse_cmd st "hello -A foo" = .error PyErr.systemExit
    ∧ cmdParseArgs ["hello", "-A", "foo"] = .error () :=
  ⟨rfl, rfl⟩

/-- C7: the claim promises a `-I` switch for a non-empty source image, but
the source line reads `a.init_img` where `a` is a plain dict, so `prompt_str`
raises an `AttributeError` whenever `init_img` is non-empty; with an empty
`init_img` the fixed field order is produced. -/
theorem C7_prompt_str_initimg_bug :
    (Args.prompt_str { initArgs with
        _cmd_switches := setKey emptyCmdNS "init_img" (.str "./img.png") } []).1
      = .error PyErr.attributeError
    ∧ (Args.prompt_str initArgs []).1
      = .ok "\" -s 50 -W 512 -H 512 -C 7.5 -A k_lms -S None" :=
  ⟨rfl, rfl⟩

/-- C8: reading the full field mapping binds the merged dict to the startup
record, as its own dict object, and updates it in place, so the read returns the
overlay but also rewrites the startup record: afterwards the startup record
contains command fields such as `steps`, which it did not contain before, and
`to_dict` mutates it the same way. -/
theorem C8_dict_read_mutates :
    (Args.getattribute initArgs "__dict__").1
        = .dict (dictUpdate initArgs._arg_switches initArgs._cmd_switches)
    ∧ (Args.getattribute initArgs "__dict__").2._arg_switches
        = dictUpdate initArgs._arg_switches initArgs._cmd_switches
    ∧ initArgs._arg_switches.lookup "steps" = Option.none
    ∧ (Args.getattribute initArgs "__dict__").2._arg_switches.lookup "steps"
        = some (.int 50)
    ∧ (Args.getattribute initArgs "__dict__").2._arg_switches ≠ initArgs._arg_switches
    ∧ (Args.to_dict initArgs []).2._arg_switches ≠ initArgs._arg_switches :=
  ⟨rfl, rfl, rfl, by decide, by decide, by decide⟩

/-- C9 counterexample: `prompt_str` is a non-underscore name declared by
neither parser; assignment succeeds and writes the command record, but a read
of the name returns the bound method, not the written value. -/
theorem C9_setattr_cex :
    underscoreName "prompt_str" = false
    ∧ (Args.setattr initArgs "prompt_str" (.int 7))._cmd_switches.lookup "prompt_str"
        = some (.int 7)
    ∧ (Args.getattribute (Args.setattr initArgs "prompt_str" (.int 7)) "prompt_str").1
        = .method "prompt_str"
    ∧ (Args.getattribute (Args.setattr initArgs "prompt_str" (.int 7)) "prompt_str").1
        ≠ .val (.int 7) :=
  ⟨by decide, by decide, by decide, by decide⟩

/-- C9 amended: for every non-underscore name that is not one of the
public method names of the object, including names declared by neither
parser, assignment
always succeeds, creates or overwrites the field in the command record, the
written value is returned by the next read, and the value appears in the
effective-configuration view (the merged mapping read through `__dict__`).
The key-uniqueness hypothesis holds for every parse-produced record. -/
theorem C9_setattr_amended (st : Args) (name : String) (v : PyVal)
    (h1 : underscoreName name = false)
    (h2 : name ∉ argsPublicMethods)
    (h3 : (st._cmd_switches.map Prod.fst).Nodup) :
    (Args.setattr st name v)._cmd_switches.lookup name = some v
    ∧ (Args.getattribute (Args.setattr st name v) name).1 = .val v
    ∧ (Args.getattribute (Args.setattr st name v) "__dict__").1
        = .dict (dictUpdate st._arg_switches (setKey st._cmd_switches name v))
    ∧ (dictUpdate st._arg_switches (setKey st._cmd_switches name v)).lookup name
        = some v := by
  refine ⟨lookup_setKey_self _ _ _, ?_, rfl, ?_⟩
  · rw [getattr_fallthrough (Args.setattr st name v) name h1 h2]
    show (match (setKey st._cmd_switches name v).lookup name with
      | some v => AttrResult.val v
      | Option.none =>
        match st._arg_switches.lookup name with
        | some w => AttrResult.val w
        | Option.none => AttrResult.error) = AttrResult.val v
    rw [lookup_setKey_self]
  · rw [lookup_dictUpdate st._arg_switches (setKey st._cmd_switches name v) name
      (nodup_keys_setKey st._cmd_switches name v h3)]
    rw [lookup_setKey_self]

/-- Witness for C9 at a concrete write of a name declared by neither
parser. -/
theorem C9_setattr_amended_witness :
    underscoreName "extra_field" = false ∧ "extra_field" ∉ argsPublicMethods ∧
    (initArgs._cmd_switches.map Prod.fst).Nodup ∧
    ((Args.setattr initArgs "extra_field" (.int 4))._cmd_switches.lookup "extra_field"
        = some (.int 4)
      ∧ (Args.getattribute (Args.setattr initArgs "extra_field" (.int 4)) "extra_field").1
          = .val (.int 4)
      ∧ (Args.getattribute (Args.setattr initArgs "extra_field" (.int 4)) "__dict__").1
          = .dict (dictUpdate initArgs._arg_switches
              (setKey initArgs._cmd_switches "extra_field" (.int 4)))
      ∧ (dictUpdate initArgs._arg_switches
            (setKey initArgs._cmd_switches "extra_field" (.int 4))).lookup "extra_field"
          = some (.int 4)) :=
  ⟨by decide, by decide, by decide,
    C9_setattr_amended initArgs "extra_field" (.int 4) (by decide) (by decide) (by decide)⟩

instance {e a : Type} [DecidableEq e] [DecidableEq a] :
    DecidableEq (Except e a) := fun x y =>
  match x, y with
  | .error e1, .error e2 =>
    if h : e1 = e2 then .isTrue (by rw [h])
    else .isFalse (fun hc => h (by cases hc; rfl))
  | .ok v1, .ok v2 =>
    if h : v1 = v2 then .isTrue (by rw [h])
    else .isFalse (fun hc => h (by cases hc; rfl))
  | .error _, .ok _ => .isFalse (fun hc => Except.noConfusion hc)
  | .ok _, .error _ => .isFalse (fun hc => Except.noConfusion hc)

/-- C2 counterexample: the command string consisting of one empty
double-quoted string tokenizes successfully into a single empty token, but
the claimed prompt/flag split never happens: evaluating `el[0]` on the empty
token raises an `IndexError` that propagates out of `parse_cmd`. -/
theorem C2_empty_token_cex :
    shlexSplit (escapeSingleQuotes "\"\"") = .ok [""]
    ∧ splitSwitches [""] ≠ .ok (pyJoin " " (promptTokens [""]) :: flagTokens [""])
    ∧ Args.parse_cmd initArgs "\"\"" = .error PyErr.indexError :=
  ⟨rfl, by decide, rfl⟩

/-- C2 amended: for every command string that tokenizes successfully into
tokens that are all non-empty, the tokens strictly before the first
dash-prefixed token, space-joined, become the prompt text verbatim, and the
first dash-prefixed token together with every later token is the list handed
to the flag parser. -/
theorem C2_prompt_split_amended (s : String) (els : List String) (st : Args)
    (h : shlexSplit (escapeSingleQuotes s) = .ok els)
    (hne : ∀ t ∈ els, t ≠ "") :
    splitSwitches els = .ok (pyJoin " " (promptTokens els) :: flagTokens els)
    ∧ Args.parse_cmd st s =
      (match cmdParseArgs (pyJoin " " (promptTokens els) :: flagTokens els) with
       | .error _ => .error PyErr.systemExit
       | .ok ns => .ok (ns, { st with _cmd_switches := ns })) := by
  have h1 := splitSwitches_eq els hne
  refine ⟨h1, ?_⟩
  unfold Args.parse_cmd
  rw [h]
  show (match splitSwitches els with
    | .error e => Except.error e
    | .ok switches =>
      match cmdParseArgs switches with
      | .error _ => Except.error PyErr.systemExit
      | .ok ns => .ok (ns, { st with _cmd_switches := ns })) = _
  rw [h1]

/-- The command record parsed from `hello there -s 20`. -/
def cmdAfterHello : NS :=
  setKey (setKey cmdDefaults "prompt" (.str "hello there")) "steps" (.int 20)

/-- Witness for C2 at the concrete command `hello there -s 20`. -/
theorem C2_prompt_split_witness :
    shlexSplit (escapeSingleQuotes "hello there -s 20")
        = .ok ["hello", "there", "-s", "20"]
    ∧ splitSwitches ["hello", "there", "-s", "20"] = .ok ["hello there", "-s", "20"]
    ∧ Args.parse_cmd initArgs "hello there -s 20"
        = .ok (cmdAfterHello, { initArgs with _cmd_switches := cmdAfterHello }) := by
  refine ⟨rfl, ?_, ?_⟩
  · exact (C2_prompt_split_amended "hello there -s 20" ["hello", "there", "-s", "20"]
      initArgs rfl (by decide)).1
  · exact (C2_prompt_split_amended "hello there -s 20" ["hello", "there", "-s", "20"]
      initArgs rfl (by decide)).2

theorem isPrefixOf_append_self (l t : List Char) : l.isPrefixOf (l ++ t) = true := by
  induction l with
  | nil => cases t <;> rfl
  | cons c cs ih => simp [List.isPrefixOf, ih]

/-- A successful switch list starts with the opening double quote followed by
the prompt text. -/
theorem promptSwitches_head (a : NS) (l : List String) (p : PyVal)
    (hsw : promptSwitches a = .ok l)
    (hp : a.lookup "prompt" = some p) :
    ∃ rest, l = ("\"" ++ pyStr p) :: rest := by
  have hitem : item a "prompt" = .ok p := by simp [item, hp]
  unfold promptSwitches at hsw
  rw [hitem] at hsw
  cases htail : promptTailSwitches a with
  | error e => rw [htail] at hsw; exact absurd hsw (by simp)
  | ok rest =>
    rw [htail] at hsw
    refine ⟨rest, ?_⟩
    injection hsw with h'
    exact h'.symm

/-- C10: whenever `prompt_str` returns a string, that string begins with a
double-quote character immediately followed by the prompt text, the prompt
switch contains exactly one more double quote than the prompt text itself
(the opening delimiter; no closing quote is emitted), and the first element
of the switch list is exactly that unclosed prompt switch. -/
theorem C10_prompt_quote (st : Args) (kwargs : NS) (s : String) (p : PyVal)
    (hs : (Args.prompt_str st kwargs).1 = .ok s)
    (hp : (dictUpdate (dictUpdate st._arg_switches st._cmd_switches) kwargs).lookup "prompt"
        = some p) :
    (promptSwitches (dictUpdate (dictUpdate st._arg_switches st._cmd_switches) kwargs)).map
        (fun l => l.head?) = .ok (some ("\"" ++ pyStr p))
    ∧ ("\"" ++ pyStr p).data.isPrefixOf s.data = true
    ∧ dqc ("\"" ++ pyStr p) = dqc (pyStr p) + 1 := by
  have hs2 : (promptSwitches
      (dictUpdate (dictUpdate st._arg_switches st._cmd_switches) kwargs)).map
        (pyJoin " ") = .ok s := hs
  cases hsw : promptSwitches
      (dictUpdate (dictUpdate st._arg_switches st._cmd_switches) kwargs) with
  | error e =>
    rw [hsw] at hs2
    exact absurd hs2 (by simp [Except.map])
  | ok l =>
    rw [hsw] at hs2
    have hjoin : pyJoin " " l = s := by simpa [Except.map] using hs2
    obtain ⟨rest, hl⟩ := promptSwitches_head _ l p hsw hp
    refine ⟨?_, ?_, ?_⟩
    · rw [hl]
      simp [Except.map]
    · rw [← hjoin, hl]
      cases rest with
      | nil =>
        have hpj : pyJoin " " [("\"" ++ pyStr p)] = ("\"" ++ pyStr p) := rfl
        rw [hpj]
        have := isPrefixOf_append_self ("\"" ++ pyStr p).data []
        rwa [List.append_nil] at this
      | cons y ys =>
        have hpj : pyJoin " " (("\"" ++ pyStr p) :: y :: ys)
            = ("\"" ++ pyStr p) ++ " " ++ pyJoin " " (y :: ys) := rfl
        rw [hpj, sapp_assoc, sdata_append]
        exact isPrefixOf_append_self _ _
    · rw [dqc_append]
      rw [show dqc "\"" = 1 from rfl, Nat.add_comm]

/-- Witness for C10 at the default object: the returned string and the
unclosed prompt switch for the empty prompt. -/
theorem C10_prompt_quote_witness :
    (Args.prompt_str initArgs []).1
        = .ok "\" -s 50 -W 512 -H 512 -C 7.5 -A k_lms -S None"
    ∧ (dictUpdate (dictUpdate initArgs._arg_switches initArgs._cmd_switches) []).lookup
        "prompt" = some (.str "")
    ∧ ((promptSwitches
          (dictUpdate (dictUpdate initArgs._arg_switches initArgs._cmd_switches) [])).map
            (fun l => l.head?) = .ok (some ("\"" ++ pyStr (.str "")))
        ∧ ("\"" ++ pyStr (.str "")).data.isPrefixOf
            ("\" -s 50 -W 512 -H 512 -C 7.5 -A k_lms -S None" : String).data = true
        ∧ dqc ("\"" ++ pyStr (.str "")) = dqc (pyStr (.str "")) + 1) :=
  ⟨rfl, rfl, C10_prompt_quote initArgs [] _ (.str "") rfl rfl⟩
